import Mathlib

/-!
Verification of the Intimex Đắk Mil assistant backend.

The repository is a small Node.js HTTP relay (`src/server.js`, plus two
earlier variants of the same server in `src/unnamed/part_000` and
`src/unnamed/part_001`).  This file gives a shallow embedding of the pure
computational core of that code — string normalisation, question
classification, row search, the complete-list detector, CSV export, the
context builder, the dataset cache step and the retry wrapper — and proves
or refutes the specification claims about them.

JavaScript strings are modelled as `List Char`, JavaScript row objects
(string-keyed records) as association lists `List (Str × Str)`.
Definitions in namespace `Server` are translated from `src/server.js`;
definitions in namespace `Part0` are translated from
`src/unnamed/part_000`.  Shared helpers (used identically by both files)
are at top level.
-/

/-- A JavaScript string, modelled as its sequence of characters. -/
abbrev Str := List Char

/-- A dataset row: a JavaScript object mapping column names to cell values
(`Row` in the spec's data model). Keys are unique, as in a JS object. -/
abbrev Row := List (Str × Str)

/-! ### Character classes used by the JavaScript code -/

/-- The combining diacritical marks range `[̀-ͯ]` stripped by
`removeVietnameseTones`. -/
def isCombiningMark (c : Char) : Bool := 0x300 ≤ c.toNat && c.toNat ≤ 0x36F

/-- JavaScript `\s` / `String.prototype.trim` whitespace (the characters
relevant to this system's inputs). -/
def jsWhitespace (c : Char) : Bool :=
  c = ' ' || c = '\t' || c = '\n' || c = '\r' ||
  c = Char.ofNat 0x0B || c = Char.ofNat 0x0C || c = Char.ofNat 0xA0

/-- JavaScript regex `\w`: `[A-Za-z0-9_]`. -/
def isWordChar (c : Char) : Bool :=
  ('a' ≤ c && c ≤ 'z') || ('A' ≤ c && c ≤ 'Z') || ('0' ≤ c && c ≤ '9') || c = '_'

/-! ### Unicode NFD decomposition, restricted to the repertoire this
system processes (the Vietnamese alphabet). -/

/-- Combining grave accent U+0300. -/
def mGrave : Char := Char.ofNat 0x300
/-- Combining acute accent U+0301. -/
def mAcute : Char := Char.ofNat 0x301
/-- Combining circumflex U+0302. -/
def mCirc : Char := Char.ofNat 0x302
/-- Combining tilde U+0303. -/
def mTilde : Char := Char.ofNat 0x303
/-- Combining breve U+0306. -/
def mBreve : Char := Char.ofNat 0x306
/-- Combining hook above U+0309. -/
def mHook : Char := Char.ofNat 0x309
/-- Combining horn U+031B. -/
def mHorn : Char := Char.ofNat 0x31B
/-- Combining dot below U+0323. -/
def mDot : Char := Char.ofNat 0x323

/-- Canonical (NFD) decompositions of the precomposed Vietnamese letters
(plus `ḥ`, which occurs in a corrupted header probed by the code).
Characters not listed here (ASCII, whitespace, punctuation, `đ`/`Đ`,
which have no canonical decomposition) decompose to themselves.
The order of combining marks after the base letter plays no role in any
theorem below, since every mark in this table lies in `[̀-ͯ]`
and is therefore removed by `removeVietnameseTones`. -/
def nfdTable : List (Char × List Char) :=
  [ ('à', ['a', mGrave]), ('á', ['a', mAcute]), ('ả', ['a', mHook]),
    ('ã', ['a', mTilde]), ('ạ', ['a', mDot]),
    ('ă', ['a', mBreve]), ('ằ', ['a', mBreve, mGrave]), ('ắ', ['a', mBreve, mAcute]),
    ('ẳ', ['a', mBreve, mHook]), ('ẵ', ['a', mBreve, mTilde]), ('ặ', ['a', mDot, mBreve]),
    ('â', ['a', mCirc]), ('ầ', ['a', mCirc, mGrave]), ('ấ', ['a', mCirc, mAcute]),
    ('ẩ', ['a', mCirc, mHook]), ('ẫ', ['a', mCirc, mTilde]), ('ậ', ['a', mDot, mCirc]),
    ('è', ['e', mGrave]), ('é', ['e', mAcute]), ('ẻ', ['e', mHook]),
    ('ẽ', ['e', mTilde]), ('ẹ', ['e', mDot]),
    ('ê', ['e', mCirc]), ('ề', ['e', mCirc, mGrave]), ('ế', ['e', mCirc, mAcute]),
    ('ể', ['e', mCirc, mHook]), ('ễ', ['e', mCirc, mTilde]), ('ệ', ['e', mDot, mCirc]),
    ('ì', ['i', mGrave]), ('í', ['i', mAcute]), ('ỉ', ['i', mHook]),
    ('ĩ', ['i', mTilde]), ('ị', ['i', mDot]),
    ('ò', ['o', mGrave]), ('ó', ['o', mAcute]), ('ỏ', ['o', mHook]),
    ('õ', ['o', mTilde]), ('ọ', ['o', mDot]),
    ('ô', ['o', mCirc]), ('ồ', ['o', mCirc, mGrave]), ('ố', ['o', mCirc, mAcute]),
    ('ổ', ['o', mCirc, mHook]), ('ỗ', ['o', mCirc, mTilde]), ('ộ', ['o', mDot, mCirc]),
    ('ơ', ['o', mHorn]), ('ờ', ['o', mHorn, mGrave]), ('ớ', ['o', mHorn, mAcute]),
    ('ở', ['o', mHorn, mHook]), ('ỡ', ['o', mHorn, mTilde]), ('ợ', ['o', mHorn, mDot]),
    ('ù', ['u', mGrave]), ('ú', ['u', mAcute]), ('ủ', ['u', mHook]),
    ('ũ', ['u', mTilde]), ('ụ', ['u', mDot]),
    ('ư', ['u', mHorn]), ('ừ', ['u', mHorn, mGrave]), ('ứ', ['u', mHorn, mAcute]),
    ('ử', ['u', mHorn, mHook]), ('ữ', ['u', mHorn, mTilde]), ('ự', ['u', mHorn, mDot]),
    ('ỳ', ['y', mGrave]), ('ý', ['y', mAcute]), ('ỷ', ['y', mHook]),
    ('ỹ', ['y', mTilde]), ('ỵ', ['y', mDot]),
    ('ḥ', ['h', mDot]),
    ('À', ['A', mGrave]), ('Á', ['A', mAcute]), ('Ả', ['A', mHook]),
    ('Ã', ['A', mTilde]), ('Ạ', ['A', mDot]),
    ('Ă', ['A', mBreve]), ('Ằ', ['A', mBreve, mGrave]), ('Ắ', ['A', mBreve, mAcute]),
    ('Ẳ', ['A', mBreve, mHook]), ('Ẵ', ['A', mBreve, mTilde]), ('Ặ', ['A', mDot, mBreve]),
    ('Â', ['A', mCirc]), ('Ầ', ['A', mCirc, mGrave]), ('Ấ', ['A', mCirc, mAcute]),
    ('Ẩ', ['A', mCirc, mHook]), ('Ẫ', ['A', mCirc, mTilde]), ('Ậ', ['A', mDot, mCirc]),
    ('È', ['E', mGrave]), ('É', ['E', mAcute]), ('Ẻ', ['E', mHook]),
    ('Ẽ', ['E', mTilde]), ('Ẹ', ['E', mDot]),
    ('Ê', ['E', mCirc]), ('Ề', ['E', mCirc, mGrave]), ('Ế', ['E', mCirc, mAcute]),
    ('Ể', ['E', mCirc, mHook]), ('Ễ', ['E', mCirc, mTilde]), ('Ệ', ['E', mDot, mCirc]),
    ('Ì', ['I', mGrave]), ('Í', ['I', mAcute]), ('Ỉ', ['I', mHook]),
    ('Ĩ', ['I', mTilde]), ('Ị', ['I', mDot]),
    ('Ò', ['O', mGrave]), ('Ó', ['O', mAcute]), ('Ỏ', ['O', mHook]),
    ('Õ', ['O', mTilde]), ('Ọ', ['O', mDot]),
    ('Ô', ['O', mCirc]), ('Ồ', ['O', mCirc, mGrave]), ('Ố', ['O', mCirc, mAcute]),
    ('Ổ', ['O', mCirc, mHook]), ('Ỗ', ['O', mCirc, mTilde]), ('Ộ', ['O', mDot, mCirc]),
    ('Ơ', ['O', mHorn]), ('Ờ', ['O', mHorn, mGrave]), ('Ớ', ['O', mHorn, mAcute]),
    ('Ở', ['O', mHorn, mHook]), ('Ỡ', ['O', mHorn, mTilde]), ('Ợ', ['O', mHorn, mDot]),
    ('Ù', ['U', mGrave]), ('Ú', ['U', mAcute]), ('Ủ', ['U', mHook]),
    ('Ũ', ['U', mTilde]), ('Ụ', ['U', mDot]),
    ('Ư', ['U', mHorn]), ('Ừ', ['U', mHorn, mGrave]), ('Ứ', ['U', mHorn, mAcute]),
    ('Ử', ['U', mHorn, mHook]), ('Ữ', ['U', mHorn, mTilde]), ('Ự', ['U', mHorn, mDot]),
    ('Ỳ', ['Y', mGrave]), ('Ý', ['Y', mAcute]), ('Ỷ', ['Y', mHook]),
    ('Ỹ', ['Y', mTilde]), ('Ỵ', ['Y', mDot]),
    ('Ḥ', ['H', mDot]) ]

/-- `String.prototype.normalize("NFD")` on one character. -/
def nfdChar (c : Char) : List Char := (nfdTable.lookup c).getD [c]

/-- The `.replace(/đ/g, "d").replace(/Đ/g, "D")` step. -/
def replaceD (c : Char) : Char := if c = 'đ' then 'd' else if c = 'Đ' then 'D' else c

/-- `removeVietnameseTones` — identical in `src/server.js` (lines 149-156)
and both variants:
decompose to NFD, strip the combining marks `[̀-ͯ]`, and fold
`đ`/`Đ` to `d`/`D`; `!str` (empty / undefined) yields the empty string. -/
def removeVietnameseTones (s : Str) : Str :=
  if s = [] then []
  else ((s.flatMap nfdChar).filter (fun c => !isCombiningMark c)).map replaceD

/-! ### `toLowerCase` -/

/-- Lowercasing for the uppercase precomposed Vietnamese letters
(the non-ASCII part of `String.prototype.toLowerCase` this system can
encounter). -/
def vnLowerTable : List (Char × Char) :=
  [ ('À', 'à'), ('Á', 'á'), ('Ả', 'ả'), ('Ã', 'ã'), ('Ạ', 'ạ'),
    ('Ă', 'ă'), ('Ằ', 'ằ'), ('Ắ', 'ắ'), ('Ẳ', 'ẳ'), ('Ẵ', 'ẵ'), ('Ặ', 'ặ'),
    ('Â', 'â'), ('Ầ', 'ầ'), ('Ấ', 'ấ'), ('Ẩ', 'ẩ'), ('Ẫ', 'ẫ'), ('Ậ', 'ậ'),
    ('È', 'è'), ('É', 'é'), ('Ẻ', 'ẻ'), ('Ẽ', 'ẽ'), ('Ẹ', 'ẹ'),
    ('Ê', 'ê'), ('Ề', 'ề'), ('Ế', 'ế'), ('Ể', 'ể'), ('Ễ', 'ễ'), ('Ệ', 'ệ'),
    ('Ì', 'ì'), ('Í', 'í'), ('Ỉ', 'ỉ'), ('Ĩ', 'ĩ'), ('Ị', 'ị'),
    ('Ò', 'ò'), ('Ó', 'ó'), ('Ỏ', 'ỏ'), ('Õ', 'õ'), ('Ọ', 'ọ'),
    ('Ô', 'ô'), ('Ồ', 'ồ'), ('Ố', 'ố'), ('Ổ', 'ổ'), ('Ỗ', 'ỗ'), ('Ộ', 'ộ'),
    ('Ơ', 'ơ'), ('Ờ', 'ờ'), ('Ớ', 'ớ'), ('Ở', 'ở'), ('Ỡ', 'ỡ'), ('Ợ', 'ợ'),
    ('Ù', 'ù'), ('Ú', 'ú'), ('Ủ', 'ủ'), ('Ũ', 'ũ'), ('Ụ', 'ụ'),
    ('Ư', 'ư'), ('Ừ', 'ừ'), ('Ứ', 'ứ'), ('Ử', 'ử'), ('Ữ', 'ữ'), ('Ự', 'ự'),
    ('Ỳ', 'ỳ'), ('Ý', 'ý'), ('Ỷ', 'ỷ'), ('Ỹ', 'ỹ'), ('Ỵ', 'ỵ'),
    ('Đ', 'đ'), ('Ḥ', 'ḥ') ]

/-- ASCII lowercasing (as in the core of `toLowerCase`). -/
def asciiToLower (c : Char) : Char :=
  if 65 ≤ c.toNat && c.toNat ≤ 90 then Char.ofNat (c.toNat + 32) else c

/-- One character of `String.prototype.toLowerCase`. -/
def jsToLower (c : Char) : Char := (vnLowerTable.lookup c).getD (asciiToLower c)

/-- `str.toLowerCase()`. -/
def lowerStr (s : Str) : Str := s.map jsToLower

/-! ### Other JavaScript string primitives -/

/-- `String.prototype.includes`: `includes s sub` is `s.includes(sub)`. -/
def includes (s sub : Str) : Bool :=
  match s with
  | [] => sub.isEmpty
  | _ :: rest => sub.isPrefixOf s || includes rest sub

/-- `String.prototype.trim`. -/
def jsTrim (s : Str) : Str :=
  ((s.dropWhile jsWhitespace).reverse.dropWhile jsWhitespace).reverse

/-- `Array.prototype.join(sep)`. -/
def arrayJoin (sep : Str) : List Str → Str
  | [] => []
  | [x] => x
  | x :: y :: rest => x ++ sep ++ arrayJoin sep (y :: rest)

/-- JavaScript `a || b` on strings (`""` is falsy). -/
def jsOr (a b : Str) : Str := if a = [] then b else a

/-- JavaScript property access `row[k]`, with absent keys read as the
empty string (the code always guards with `|| ""` / `?? ""`). -/
def lookupStr (row : Row) (k : Str) : Str := (row.lookup k).getD []

/-- Right-fold worker for `split(/\s+/)`: processes the string from the
right, returning the token list and whether the next (right-adjacent)
character was whitespace, so that a whitespace run contributes exactly one
token boundary. -/
def splitWsAux : List Char → List Str × Bool
  | [] => ([[]], false)
  | c :: rest =>
    let r := splitWsAux rest
    if jsWhitespace c then
      (if r.2 then r.1 else [] :: r.1, true)
    else
      (match r.1 with
       | t :: ts => (c :: t) :: ts
       | [] => [[c]], false)

/-- `str.split(/\s+/)`: split on maximal whitespace runs; a leading or
trailing run contributes an empty token, as in JavaScript. -/
def jsSplitWs (s : Str) : List Str := (splitWsAux s).1

/-! ### `JSON.stringify(x, null, 2)` for a list of rows -/

/-- Left brace character (U+007B). -/
def lbrace : Char := Char.ofNat 123
/-- Right brace character (U+007D). -/
def rbrace : Char := Char.ofNat 125

/-- Lowercase hex digit. -/
def hexDigit (n : Nat) : Char :=
  if n < 10 then Char.ofNat (48 + n) else Char.ofNat (87 + n)

/-- JSON string escaping of one character, as `JSON.stringify` performs it. -/
def jsonEscapeChar (c : Char) : List Char :=
  if c = '"' then ['\\', '"']
  else if c = '\\' then ['\\', '\\']
  else if c = '\n' then ['\\', 'n']
  else if c = '\t' then ['\\', 't']
  else if c = '\r' then ['\\', 'r']
  else if c = Char.ofNat 8 then ['\\', 'b']
  else if c = Char.ofNat 12 then ['\\', 'f']
  else if c.toNat < 32 then
    ['\\', 'u', '0', '0', hexDigit (c.toNat / 16), hexDigit (c.toNat % 16)]
  else [c]

/-- A JSON string literal. -/
def jsonString (s : Str) : Str := '"' :: s.flatMap jsonEscapeChar ++ ['"']

/-- One row as a 2-space-indented JSON object at array depth. -/
def jsonObj (row : Row) : Str :=
  match row with
  | [] => [lbrace, rbrace]
  | _ =>
    [lbrace, '\n'] ++
    arrayJoin [',', '\n']
      (row.map (fun kv => "    ".data ++ jsonString kv.1 ++ ": ".data ++ jsonString kv.2)) ++
    ['\n', ' ', ' ', rbrace]

/-- `JSON.stringify(rows, null, 2)`. -/
def jsonStringifyRows (rows : List Row) : Str :=
  match rows with
  | [] => ['[', ']']
  | _ =>
    ['[', '\n'] ++
    arrayJoin [',', '\n'] (rows.map (fun r => "  ".data ++ jsonObj r)) ++
    ['\n', ']']

/-! ### The row-search loop shared by both server variants

The body of strategy 3 of `searchRows` in `src/server.js` and of
`searchRows` in `src/unnamed/part_000` is the same loop; the two files
differ only in how a row is rendered to text (`server.js` additionally
strips tones). The loop accumulates rows matching any key and breaks
once 500 results have been collected; `count` is the number of results
already accumulated. -/
def searchLoop (rowText : Row → Str) (keys : List Str) (count : Nat) :
    List Row → List Row
  | [] => []
  | row :: rest =>
    if keys.any (fun k => includes (rowText row) k) then
      if 500 ≤ count + 1 then [row]
      else row :: searchLoop rowText keys (count + 1) rest
    else searchLoop rowText keys count rest

namespace Server

/-! Definitions translated from `src/server.js`. -/

/-- Row text used by the generic search strategy:
`removeVietnameseTones(Object.values(row).join(" ").toLowerCase())`. -/
def rowFullText (row : Row) : Str :=
  removeVietnameseTones (lowerStr (arrayJoin [' '] (row.map Prod.snd)))

/-- The leadership filter of `searchRows` strategy 1 (`server.js` 166-181):
probe the title column under its known spellings and keep rows whose
title contains a leadership marker. -/
def titleMatches (row : Row) : Bool :=
  let title := removeVietnameseTones (lowerStr
    (jsOr (lookupStr row "Chức vụ".data)
      (jsOr (lookupStr row "Chuc vu".data) (lookupStr row "Ch?c v?".data))))
  includes title "truong".data || includes title "giam doc".data ||
  includes title "pho giam doc".data || includes title "truong bp".data

/-- The department filter of `searchRows` strategy 2 (`server.js` 190-200). -/
def deptMatches (pbKeyword : Str) (row : Row) : Bool :=
  let pb := removeVietnameseTones (lowerStr
    (jsOr (lookupStr row "Phòng ban".data)
      (jsOr (lookupStr row "Phong ban".data) (lookupStr row "Pḥng ban".data))))
  includes pb pbKeyword

/-- Strategy 1 trigger: the question mentions leadership. -/
def titleBranch (q : Str) : Bool :=
  includes q "truong phong".data || includes q "truong".data || includes q "giam doc".data

/-- Strategy 2 trigger: `q.includes("phong ")`, the token `phong` occurs,
and it is followed by a further non-empty token. -/
def deptBranch (q : Str) : Bool :=
  let words := jsSplitWs q
  let idx := words.indexOf "phong".data
  includes q "phong ".data && decide (idx + 1 < words.length) &&
    !(words.getD (idx + 1) []).isEmpty

/-- `searchRows` from `src/server.js` lines 160-221. -/
def searchRows (question : Str) (rows : List Row) : List Row :=
  let q := removeVietnameseTones (lowerStr question)
  if titleBranch q then
    rows.filter titleMatches
  else if deptBranch q then
    let words := jsSplitWs q
    let idx := words.indexOf "phong".data
    rows.filter (deptMatches (words.getD (idx + 1) []))
  else
    let keys := (jsSplitWs q).filter (fun w => 1 < w.length)
    let results := searchLoop rowFullText keys 0 rows
    if results.isEmpty then rows.take 20 else results

/-- The explicit complete-list phrases of `isAllEmployeesQuery`
(`server.js` 228-235). -/
def explicitAllPhrases : List Str :=
  [ "toan bo nhan su".data, "toan bo nhan vien".data,
    "tat ca nhan su".data, "tat ca nhan vien".data,
    "tong danh sach nhan su".data, "tong danh sach nhan vien".data ]

/-- Whether the normalized question contains an explicit complete-list phrase. -/
def hasExplicitAll (t : Str) : Bool := explicitAllPhrases.any (fun p => includes t p)

/-- The bare list-of-staff phrases (`server.js` 240). -/
def hasBareList (t : Str) : Bool :=
  includes t "danh sach nhan su".data || includes t "danh sach nhan vien".data

/-- The qualifier words that veto the bare list reading (`server.js` 241-245). -/
def qualifierWords : List Str :=
  [ "truong".data, "pho".data, "phong ".data, "dang lam".data, "nghi".data ]

/-- Whether a qualifier word is present. -/
def hasQualifier (t : Str) : Bool := qualifierWords.any (fun p => includes t p)

/-- `isAllEmployeesQuery` from `src/server.js` lines 225-251. -/
def isAllEmployeesQuery (message : Str) : Bool :=
  let t := removeVietnameseTones (lowerStr message)
  if hasExplicitAll t then true
  else if hasBareList t && !hasQualifier t then true
  else false

/-- `value.replace(/"/g, '""')` — double each double-quote. -/
def escapeQuotes (v : Str) : Str :=
  v.flatMap (fun c => if c = '"' then ['"', '"'] else [c])

/-- One CSV cell: `"${escaped}"`. -/
def csvField (v : Str) : Str := '"' :: escapeQuotes v ++ ['"']

/-- `rowsToCsv` from `src/server.js` lines 255-268: header row from the
first record's keys (unquoted), every data cell double-quoted with inner
quotes doubled, lines joined by a newline. -/
def rowsToCsv (rows : List Row) : Str :=
  match rows with
  | [] => []
  | r0 :: _ =>
    let headers := r0.map Prod.fst
    let lines := arrayJoin [','] headers ::
      rows.map (fun row =>
        arrayJoin [','] (headers.map (fun h => csvField (lookupStr row h))))
    arrayJoin ['\n'] lines

/-- Decimal digits of a timestamp, for the download file name. -/
def natDigits (n : Nat) : Str := Nat.toDigits 10 n

/-- `createHrDownloadFile` (`server.js` 270-277): returns `null` on an
empty row set, otherwise writes the CSV and returns its public URL.
Modelled as returning the pair (URL, file contents written). -/
def createHrDownloadFile (rows : List Row) (now : Nat) : Option (Str × Str) :=
  if rows.isEmpty then none
  else some ("/downloads/nhan-su-".data ++ natDigits now ++ ".txt".data, rowsToCsv rows)

/-- `classifyQuestion` from `src/server.js` lines 281-288. -/
def classifyQuestion (message : Str) : Nat :=
  let t := removeVietnameseTones (lowerStr message)
  if includes t "nhan su".data || includes t "nhan vien".data then 2
  else if includes t "quy trinh".data || includes t "sop".data then 3
  else if includes t "doanh thu".data || includes t "kpi".data ||
          includes t "bao cao".data then 4
  else 1

/-- A dataset cache snapshot (`introCache` / `hrCache`, `server.js` 99-100). -/
structure Cache where
  rows : List Row
  loadedAt : Nat
deriving DecidableEq

/-- Outcome of the HTTP fetch + CSV parse performed on a cache miss. -/
inductive FetchResult
  | success (records : List Row)
  | failure
deriving DecidableEq

/-- `CACHE_TTL` (`server.js` 101): ten minutes in milliseconds. -/
def CACHE_TTL : Nat := 10 * 60 * 1000

/-- `getHrRows` (`server.js` 126-145), as one step of the cache state
machine: given the current cache, the clock and the (external) fetch
outcome, return the rows served, the new cache state, and whether an
external fetch was performed. -/
def getHrRows (hrCache : Cache) (now : Nat) (fetch : FetchResult) :
    List Row × Cache × Bool :=
  if !hrCache.rows.isEmpty && decide (now - hrCache.loadedAt < CACHE_TTL) then
    (hrCache.rows, hrCache, false)
  else
    match fetch with
    | .success records => (records, ⟨records, now⟩, true)
    | .failure =>
      (if !hrCache.rows.isEmpty then hrCache.rows else [], hrCache, true)

/-- `getCompanyIntroRows` (`server.js` 105-124); same logic over the
intro cache. -/
def getCompanyIntroRows (introCache : Cache) (now : Nat) (fetch : FetchResult) :
    List Row × Cache × Bool :=
  if !introCache.rows.isEmpty && decide (now - introCache.loadedAt < CACHE_TTL) then
    (introCache.rows, introCache, false)
  else
    match fetch with
    | .success records => (records, ⟨records, now⟩, true)
    | .failure =>
      (if !introCache.rows.isEmpty then introCache.rows else [], introCache, true)

/-- Outcome of one Groq API attempt: a successful completion, an HTTP 429
rate-limit error (`err.status === 429 || err.code === "rate_limit_exceeded"`),
or any other error. -/
inductive GroqOutcome
  | ok (v : Nat)
  | rateLimited
  | otherError
deriving DecidableEq

/-- `callGroqWithRetry` (`server.js` 46-58): try the call; on a rate-limit
error with retry budget left, sleep `delayMs`, then retry with the budget
decremented and the delay doubled; any other error (or an exhausted
budget) propagates. `api` gives the outcome of each attempt; the result
carries the list of sleep durations performed. -/
def callGroqWithRetry (api : Nat → GroqOutcome) (attempt : Nat) :
    Nat → Nat → GroqOutcome × List Nat
  | retries, delayMs =>
    match api attempt, retries with
    | .ok v, _ => (.ok v, [])
    | .otherError, _ => (.otherError, [])
    | .rateLimited, 0 => (.rateLimited, [])
    | .rateLimited, r + 1 =>
      let rest := callGroqWithRetry api (attempt + 1) r (delayMs * 2)
      (rest.1, delayMs :: rest.2)

/-- The `/chat` handler's catch-all error response (`server.js` 390-393):
every error thrown inside the handler — including a rate-limit error that
survived the retry budget — is answered with the same generic 500 body. -/
def chatErrorResponse : GroqOutcome → Nat × Str :=
  fun _ => (500, "Lỗi máy chủ /chat.".data)

/-- The data assembled by the `/chat` handler for one request
(`server.js` 301-394), up to the opaque model call: topic id and label,
the data context sent to the model, and the download artifact
(URL and file contents) if one was produced. -/
structure ChatResult where
  sectionId : Nat
  sectionLabel : Str
  dataContext : Str
  downloadUrl : Option Str
  fileWritten : Option Str
deriving DecidableEq

/-- The `/chat` routing (`server.js` 307-336): only the personnel branch
searches the HR rows, optionally exports a download file and sets
`download_url`; all other branches leave the download URL `null`. -/
def chatHandler (message : Str) (hrRows introRows : List Row) (now : Nat) :
    ChatResult :=
  let sec := classifyQuestion message
  if sec = 2 then
    let related := searchRows message hrRows
    let rowsForFile := if isAllEmployeesQuery message then hrRows else related
    let dl := if !rowsForFile.isEmpty then createHrDownloadFile rowsForFile now
              else none
    { sectionId := 2, sectionLabel := "PHAN_2_NHAN_SU".data,
      dataContext := jsonStringifyRows (related.take 40),
      downloadUrl := dl.map Prod.fst, fileWritten := dl.map Prod.snd }
  else if sec = 1 then
    let related := searchRows message introRows
    { sectionId := 1, sectionLabel := "PHAN_1_GIOI_THIEU".data,
      dataContext := jsonStringifyRows (related.take 40),
      downloadUrl := none, fileWritten := none }
  else if sec = 3 then
    { sectionId := 3, sectionLabel := "PHAN_3_QUY_TRINH".data,
      dataContext := "Dữ liệu quy trình nội bộ chưa được kết nối.".data,
      downloadUrl := none, fileWritten := none }
  else if sec = 4 then
    { sectionId := 4, sectionLabel := "PHAN_4_SO_LIEU".data,
      dataContext := "Dữ liệu số liệu / KPI chưa được kết nối.".data,
      downloadUrl := none, fileWritten := none }
  else
    { sectionId := sec, sectionLabel := [], dataContext := [],
      downloadUrl := none, fileWritten := none }

end Server

namespace Part0

/-! Definitions translated from `src/unnamed/part_000`. -/

/-- `KEYWORDS[1]` — company introduction keywords. -/
def KEYWORDS1 : List Str :=
  [ "gioi thieu cong ty".data, "intimex dak mil".data, "intimex dakmil".data,
    "lich su cong ty".data, "tam nhin".data, "su menh".data,
    "gia tri cot loi".data, "linh vuc hoat dong".data,
    "thong tin cong ty".data, "dia chi cong ty".data ]

/-- `KEYWORDS[2]` — personnel keywords. -/
def KEYWORDS2 : List Str :=
  [ "nhan su".data, "nhan vien".data, "can bo".data, "ma nv".data,
    "ma nhan vien".data, "phong ban".data, "bo phan".data,
    "phong ke toan".data, "phong kinh doanh".data, "phong hanh chinh".data,
    "chuc vu".data, "tuyen dung".data, "ho so nhan su".data,
    "so luong nhan vien".data, "nghi viec".data, "dang lam viec".data ]

/-- `KEYWORDS[3]` — procedure keywords. -/
def KEYWORDS3 : List Str :=
  [ "quy trinh".data, "sop".data, "huong dan".data, "quy che".data,
    "quy trinh lam viec".data, "quy trinh mua hang".data,
    "quy trinh ban hang".data, "quy trinh tuyen dung".data,
    "quy trinh nghi phep".data, "quy trinh thanh toan".data,
    "phe duyet".data, "luong duyet".data, "form bieu".data, "mau bieu".data ]

/-- `KEYWORDS[4]` — metrics keywords. -/
def KEYWORDS4 : List Str :=
  [ "doanh thu".data, "chi phi".data, "loi nhuan".data, "ton kho".data,
    "bao cao kinh doanh".data, "bao cao tai chinh".data, "kpi".data,
    "chi so".data, "thong ke".data, "phan tich".data, "so lieu".data,
    "doanh so".data, "san luong".data, "thang".data, "quy".data, "nam".data ]

/-- `scores[section]`: the number of the topic's keyword phrases occurring
as substrings of the normalized text (`part_000` 343-351). -/
def score (t : Str) : Nat → Nat
  | 1 => KEYWORDS1.countP (fun kw => includes t kw)
  | 2 => KEYWORDS2.countP (fun kw => includes t kw)
  | 3 => KEYWORDS3.countP (fun kw => includes t kw)
  | 4 => KEYWORDS4.countP (fun kw => includes t kw)
  | _ => 0

/-- `Math.max(scores[1], scores[2], scores[3], scores[4])`. -/
def maxScore (t : Str) : Nat :=
  max (max (max (score t 1) (score t 2)) (score t 3)) (score t 4)

/-- Whether the honorific pattern `p` followed by `\s+\w` matches at the
start of `t`.  (`\s+\w+` matches here iff after `p` comes at least one
whitespace character and the first character after the whitespace run is
a word character: `\w` never matches whitespace, so shortening the run
cannot create a match.) -/
def honorificAt (t : Str) (p : Str) : Bool :=
  p.isPrefixOf t &&
  (let rest := t.drop p.length
   let ws := rest.takeWhile jsWhitespace
   !ws.isEmpty &&
   (match rest.drop ws.length with
    | c :: _ => isWordChar c
    | [] => false))

/-- The personal-name heuristic regex
`/anh\s+\w+|chi\s+\w+|ong\s+\w+|ba\s+\w+/.test(text)` (`part_000` 357). -/
def honorificMatch (t : Str) : Bool :=
  t.tails.any (fun suf =>
    honorificAt suf "anh".data || honorificAt suf "chi".data ||
    honorificAt suf "ong".data || honorificAt suf "ba".data)

/-- The classifier on the normalized text (`part_000` 338-371): personnel
fast-path, then keyword scoring with the honorific fallback at score
zero and first-match tie-breaking over sections 1-4. -/
def classifyBody (text : Str) : Nat :=
  if includes text "nhan su".data || includes text "nhan vien".data then 2
  else if maxScore text = 0 then
    (if honorificMatch text then 2 else 1)
  else if score text 1 = maxScore text then 1
  else if score text 2 = maxScore text then 2
  else if score text 3 = maxScore text then 3
  else if score text 4 = maxScore text then 4
  else 1

/-- `classifyQuestion` from `src/unnamed/part_000` lines 333-372: empty or
whitespace-only input is section 1, otherwise classify the
tone-folded lowercased text. -/
def classifyQuestion (message : Str) : Nat :=
  if jsTrim message = [] then 1
  else classifyBody (removeVietnameseTones (lowerStr message))

/-- Row text of `part_000`'s generic search: `Object.values(row).join(" ")
.toLowerCase()` (no tone folding in this variant). -/
def rowFullText (row : Row) : Str := lowerStr (arrayJoin [' '] (row.map Prod.snd))

/-- `searchRows` from `src/unnamed/part_000` lines 176-192: the generic
substring strategy only, capped at 500 rows, falling back to the first
20 rows when nothing matches. -/
def searchRows (question : Str) (rows : List Row) : List Row :=
  let q := lowerStr question
  let keys := (jsSplitWs q).filter (fun w => 1 < w.length)
  let results := searchLoop rowFullText keys 0 rows
  if results.isEmpty then rows.take 20 else results

/-- `MAX_CONTEXT_CHARS` (`part_000` 195). -/
def MAX_CONTEXT_CHARS : Nat := 6500

/-- The truncation marker appended by `createContext`. -/
def truncationMarker : Str := "...(rút gọn)".data

/-- `createContext` from `src/unnamed/part_000` lines 194-200: serialize
the first 40 rows to pretty-printed JSON; if the serialization exceeds
the character budget, truncate to the budget and append the marker. -/
def createContext (rows : List Row) : Str :=
  let json := jsonStringifyRows (rows.take 40)
  if MAX_CONTEXT_CHARS < json.length then
    json.take MAX_CONTEXT_CHARS ++ truncationMarker
  else json

end Part0

namespace CsvSpec

/-!
Modelled from the spec: the repository parses CSV through the external
`csv-parse` library (not part of `src/`), and the spec's export
round-trip property (§8) asks that `rowsToCsv` output be re-parsed
"under the same delimited-format rules".  The parser below implements
those standard rules (spec §4.7): comma-separated fields, a field is
either double-quoted — with `""` denoting a literal quote, commas and
newlines allowed inside — or an unquoted run up to the next comma or
newline; records are separated by newlines; the first record supplies
the column names and every data record must have the same field count
(`columns: true`).

All parsing functions are fuel-based structural recursions so that they
evaluate by `decide`; the fuel passed by `csvParse` is always sufficient
(each field consumes at least one character of separator or quoting).
-/

/-- Parse the inside of a quoted field after the opening quote, up to and
including the closing quote. `""` yields a literal quote. -/
def parseQuoted : List Char → Option (Str × List Char)
  | [] => none
  | '"' :: '"' :: rest =>
    (parseQuoted rest).map (fun p => ('"' :: p.1, p.2))
  | '"' :: rest => some ([], rest)
  | c :: rest =>
    (parseQuoted rest).map (fun p => (c :: p.1, p.2))

/-- Parse one field: quoted if it starts with a quote, otherwise the run
of characters up to the next comma or newline. -/
def parseField (cs : List Char) : Option (Str × List Char) :=
  match cs with
  | '"' :: rest => parseQuoted rest
  | _ =>
    some (cs.takeWhile (fun c => !(c = ',' || c = '\n')),
          cs.dropWhile (fun c => !(c = ',' || c = '\n')))

/-- Parse one record: fields separated by commas, ended by a newline or
the end of input. Returns the fields and the remaining input after the
record separator. -/
def parseRecordAux (fuel : Nat) (cs : List Char) : Option (List Str × List Char) :=
  match fuel with
  | 0 => none
  | fuel + 1 =>
    match parseField cs with
    | none => none
    | some (v, rest) =>
      match rest with
      | [] => some ([v], [])
      | ',' :: r => (parseRecordAux fuel r).map (fun p => (v :: p.1, p.2))
      | '\n' :: r => some ([v], r)
      | _ => none

/-- Parse all records of the input. -/
def parseRecords (fuel : Nat) (cs : List Char) : Option (List (List Str)) :=
  match fuel with
  | 0 => none
  | fuel + 1 =>
    match cs with
    | [] => some []
    | _ :: _ =>
      match parseRecordAux (cs.length + 1) cs with
      | none => none
      | some (vs, rest) => (parseRecords fuel rest).map (fun rs => vs :: rs)

/-- Parse a CSV text into rows: the first record gives the column names,
each further record must have the same field count and becomes one row. -/
def csvParse (cs : Str) : Option (List Row) :=
  match parseRecords (cs.length + 1) cs with
  | none => none
  | some [] => none
  | some (headers :: dataRecs) =>
    if dataRecs.all (fun r => r.length = headers.length) then
      some (dataRecs.map (fun r => headers.zip r))
    else none

/-- A column name that survives the unquoted header line: non-empty and
free of the delimiter, quote and record-separator characters. -/
def safeHeader (h : Str) : Bool :=
  !h.isEmpty && h.all (fun c => !(c = ',' || c = '\n' || c = '"'))

end CsvSpec

/-! ## Proof infrastructure -/

/-- `includes` decides the substring (infix) relation. -/
theorem includes_iff_infix {sub s : Str} : includes s sub = true ↔ sub <:+: s := by
  induction s with
  | nil => simp [includes, List.isEmpty_iff]
  | cons c rest ih =>
    simp [includes, List.isPrefixOf_iff_prefix, ih, List.infix_cons_iff]

/-- The search loop only selects rows of its input, in order. -/
theorem searchLoop_sublist (rt : Row → Str) (keys : List Str) :
    ∀ (rows : List Row) (count : Nat), (searchLoop rt keys count rows).Sublist rows := by
  intro rows
  induction rows with
  | nil => intro count; simp [searchLoop]
  | cons row rest ih =>
    intro count
    simp only [searchLoop]
    split
    · split
      · exact (List.nil_sublist rest).cons₂ row
      · exact (ih (count + 1)).cons₂ row
    · exact (ih count).cons row

/-- The search loop never accumulates beyond 500 results. -/
theorem searchLoop_length (rt : Row → Str) (keys : List Str) :
    ∀ (rows : List Row) (count : Nat), count < 500 →
      (searchLoop rt keys count rows).length + count ≤ 500 := by
  intro rows
  induction rows with
  | nil => intro count h; simp [searchLoop]; omega
  | cons row rest ih =>
    intro count h
    simp only [searchLoop]
    split
    · split
      · next h500 => simp only [List.length_cons, List.length_nil]; omega
      · next h500 =>
        have hr := ih (count + 1) (by omega)
        simp only [List.length_cons]
        omega
    · exact ih count h

/-! ### The tone-folding normalizer, characterwise -/

/-- The action of `removeVietnameseTones` on a single character. -/
def charFold (c : Char) : List Char :=
  ((nfdChar c).filter (fun d => !isCombiningMark d)).map replaceD

theorem filter_map_flatMap {α β γ : Type} (l : List α) (f : α → List β)
    (p : β → Bool) (g : β → γ) :
    ((l.flatMap f).filter p).map g = l.flatMap (fun a => ((f a).filter p).map g) := by
  induction l with
  | nil => simp
  | cons a l ih => simp [List.flatMap_cons, List.filter_append, List.map_append, ih]

/-- `removeVietnameseTones` acts characterwise. -/
theorem removeVietnameseTones_eq (s : Str) :
    removeVietnameseTones s = s.flatMap charFold := by
  by_cases h : s = []
  · subst h; simp [removeVietnameseTones]
  · simp only [removeVietnameseTones, if_neg h]
    rw [filter_map_flatMap]
    rfl

/-- A character is a fixed point of the fold and carries no combining
mark. -/
def goodOut (d : Char) : Bool := (charFold d == [d]) && !isCombiningMark d

/-- Every character produced from a decomposition-table entry is good:
checked by evaluation over the table. -/
theorem nfdTable_good :
    nfdTable.all (fun p =>
      ((p.2.filter (fun d => !isCombiningMark d)).map replaceD).all goodOut) = true := by
  decide

/-- A successful lookup exhibits a table entry. -/
theorem lookup_mem {β : Type} {tbl : List (Char × β)} {c : Char} {b : β}
    (h : tbl.lookup c = some b) : (c, b) ∈ tbl := by
  rw [List.lookup_eq_some_iff] at h
  obtain ⟨l₁, l₂, rfl, -⟩ := h
  simp

/-- Characters produced by `charFold` are fixed points of `charFold` and
carry no combining mark. -/
theorem charFold_good {c d : Char} (hd : d ∈ charFold c) :
    charFold d = [d] ∧ isCombiningMark d = false := by
  unfold charFold nfdChar at hd
  cases h : nfdTable.lookup c with
  | some l =>
    rw [h] at hd
    simp only [Option.getD_some] at hd
    have hmem := lookup_mem h
    have hall := nfdTable_good
    rw [List.all_eq_true] at hall
    have h2 := hall _ hmem
    rw [List.all_eq_true] at h2
    have h3 := h2 _ hd
    simp only [goodOut, Bool.and_eq_true, beq_iff_eq, Bool.not_eq_true'] at h3
    exact h3
  | none =>
    rw [h] at hd
    simp only [Option.getD_none] at hd
    by_cases hcomb : isCombiningMark c = true
    · simp [hcomb] at hd
    · simp only [Bool.not_eq_true] at hcomb
      simp only [List.filter_cons, List.filter_nil, hcomb, Bool.not_false,
        if_true, List.map_cons, List.map_nil, List.mem_singleton] at hd
      subst hd
      unfold replaceD
      by_cases hd1 : c = 'đ'
      · subst hd1; simp only [if_pos rfl]; decide
      · by_cases hd2 : c = 'Đ'
        · subst hd2; simp only [if_neg hd1, if_pos rfl]; decide
        · simp only [if_neg hd1, if_neg hd2]
          refine ⟨?_, hcomb⟩
          unfold charFold nfdChar
          rw [h]
          simp [hcomb, replaceD, if_neg hd1, if_neg hd2]

/-- A list of fixed points is flat-mapped to itself. -/
theorem flatMap_charFold_id {l : List Char} (h : ∀ d ∈ l, charFold d = [d]) :
    l.flatMap charFold = l := by
  induction l with
  | nil => simp
  | cons c l ih =>
    rw [List.flatMap_cons, h c (by simp), ih (fun d hd => h d (by simp [hd]))]
    rfl

/-- Tone folding is idempotent, characterwise. -/
theorem charFold_flatMap_self (c : Char) : (charFold c).flatMap charFold = charFold c :=
  flatMap_charFold_id (fun _ hd => (charFold_good hd).1)

/-- Lower-table entries commute with the fold: checked by evaluation. -/
theorem vnLowerTable_comm :
    vnLowerTable.all (fun p =>
      charFold (jsToLower p.1) == (charFold p.1).map jsToLower) = true := by
  decide

/-- Decomposition-table entries commute with the fold: checked by
evaluation. -/
theorem nfdTable_comm :
    nfdTable.all (fun p =>
      charFold (jsToLower p.1) == (charFold p.1).map jsToLower) = true := by
  decide

/-- Every decomposition-table key is a non-ASCII letter. -/
theorem nfdTable_keys_large : nfdTable.all (fun p => 192 ≤ p.1.toNat) = true := by
  decide

/-- A character below the table range is not a table key. -/
theorem lookup_none_of_toNat_lt {β : Type} {tbl : List (Char × β)} {c : Char}
    (hb : tbl.all (fun p => 192 ≤ p.1.toNat) = true) (hc : c.toNat < 192) :
    tbl.lookup c = none := by
  rw [List.lookup_eq_none_iff]
  intro p hp
  rw [List.all_eq_true] at hb
  have h := hb p hp
  simp only [decide_eq_true_eq] at h
  rw [bne_iff_ne]
  intro hcp
  rw [hcp] at hc
  omega

theorem asciiToLower_eq_self {c : Char} (h : ¬(65 ≤ c.toNat ∧ c.toNat ≤ 90)) :
    asciiToLower c = c := by
  unfold asciiToLower
  rw [if_neg]
  simpa using h

/-- `charFold` commutes with `toLowerCase`, characterwise. -/
theorem charFold_lower (c : Char) :
    charFold (jsToLower c) = (charFold c).map jsToLower := by
  cases hv : vnLowerTable.lookup c with
  | some lc =>
    have hmem := lookup_mem hv
    have hall := vnLowerTable_comm
    rw [List.all_eq_true] at hall
    have h := hall _ hmem
    simpa using h
  | none =>
    by_cases hA : 65 ≤ c.toNat ∧ c.toNat ≤ 90
    · obtain ⟨n, hn, rfl⟩ : ∃ n, (65 ≤ n ∧ n ≤ 90) ∧ c = Char.ofNat n :=
        ⟨c.toNat, hA, (Char.ofNat_toNat c).symm⟩
      obtain ⟨hn1, hn2⟩ := hn
      interval_cases n <;> decide
    · have hl : jsToLower c = c := by
        unfold jsToLower
        rw [hv, Option.getD_none]
        exact asciiToLower_eq_self hA
      rw [hl]
      cases hn : nfdTable.lookup c with
      | some l =>
        have hmem := lookup_mem hn
        have hall := nfdTable_comm
        rw [List.all_eq_true] at hall
        have h2 := hall _ hmem
        simp only [beq_iff_eq] at h2
        rwa [hl] at h2
      | none =>
        unfold charFold nfdChar
        rw [hn]
        simp only [Option.getD_none]
        by_cases hcomb : isCombiningMark c = true
        · simp [hcomb]
        · simp only [Bool.not_eq_true] at hcomb
          simp only [List.filter_cons, List.filter_nil, hcomb, Bool.not_false,
            if_true, List.map_cons, List.map_nil, List.cons.injEq, and_true]
          by_cases hd1 : c = 'đ'
          · subst hd1; decide
          · by_cases hd2 : c = 'Đ'
            · exfalso
              subst hd2
              rw [List.lookup_eq_none_iff] at hv
              have hDmem := hv ('Đ', 'đ') (by decide)
              simp at hDmem
            · simp only [replaceD, if_neg hd1, if_neg hd2]
              exact hl.symm

/-- Tone folding is idempotent. -/
theorem removeVietnameseTones_idem (s : Str) :
    removeVietnameseTones (removeVietnameseTones s) = removeVietnameseTones s := by
  rw [removeVietnameseTones_eq, removeVietnameseTones_eq, List.flatMap_assoc]
  exact congrArg _ (funext charFold_flatMap_self)

/-- The output of tone folding carries no combining diacritical mark. -/
theorem removeVietnameseTones_no_marks {s : Str} {d : Char}
    (hd : d ∈ removeVietnameseTones s) : isCombiningMark d = false := by
  rw [removeVietnameseTones_eq, List.mem_flatMap] at hd
  obtain ⟨c, -, hc⟩ := hd
  exact (charFold_good hc).2

/-- Tone folding commutes with `toLowerCase` (case preservation). -/
theorem removeVietnameseTones_lower_comm (s : Str) :
    removeVietnameseTones (lowerStr s) = lowerStr (removeVietnameseTones s) := by
  rw [removeVietnameseTones_eq, removeVietnameseTones_eq]
  unfold lowerStr
  rw [List.flatMap_map, List.map_flatMap]
  exact congrArg _ (funext charFold_lower)

/-! ### Whitespace-only messages -/

/-- A message trims to the empty string iff all its characters are
whitespace. -/
theorem jsTrim_eq_nil_iff {s : Str} :
    jsTrim s = [] ↔ ∀ c ∈ s, jsWhitespace c = true := by
  unfold jsTrim
  rw [List.reverse_eq_nil_iff, List.dropWhile_eq_nil_iff]
  constructor
  · intro h c hc
    have hc2 : c ∈ s.takeWhile jsWhitespace ++ s.dropWhile jsWhitespace := by
      rw [List.takeWhile_append_dropWhile]
      exact hc
    rcases List.mem_append.1 hc2 with h1 | h1
    · exact List.mem_takeWhile_imp h1
    · exact h c (List.mem_reverse.2 h1)
  · intro h c hc
    exact h c ((s.dropWhile_sublist jsWhitespace).subset (List.mem_reverse.1 hc))

/-- Whitespace characters are untouched by `toLowerCase`. -/
theorem jsToLower_ws {c : Char} (h : jsWhitespace c = true) : jsToLower c = c := by
  unfold jsWhitespace at h
  simp only [Bool.or_eq_true, decide_eq_true_eq] at h
  rcases h with (((((h | h) | h) | h) | h) | h) | h <;> subst h <;> decide

/-- Whitespace characters are untouched by the fold. -/
theorem charFold_ws {c : Char} (h : jsWhitespace c = true) : charFold c = [c] := by
  unfold jsWhitespace at h
  simp only [Bool.or_eq_true, decide_eq_true_eq] at h
  rcases h with (((((h | h) | h) | h) | h) | h) | h <;> subst h <;> decide

/-- The normalized text of a whitespace-only message is whitespace-only. -/
theorem norm_ws {m : Str} (h : ∀ c ∈ m, jsWhitespace c = true) :
    ∀ c ∈ removeVietnameseTones (lowerStr m), jsWhitespace c = true := by
  intro c hc
  rw [removeVietnameseTones_eq, List.mem_flatMap] at hc
  obtain ⟨b, hb, hcb⟩ := hc
  rw [lowerStr, List.mem_map] at hb
  obtain ⟨a, ha, rfl⟩ := hb
  have haw := h a ha
  rw [jsToLower_ws haw, charFold_ws haw, List.mem_singleton] at hcb
  subst hcb
  exact haw

/-- A whitespace-only string contains no string having a non-whitespace
character. -/
theorem includes_false_of_all_ws {t kw : Str}
    (ht : ∀ c ∈ t, jsWhitespace c = true)
    (hkw : kw.any (fun c => !jsWhitespace c) = true) :
    includes t kw = false := by
  by_contra h
  rw [Bool.not_eq_false, includes_iff_infix] at h
  rw [List.any_eq_true] at hkw
  obtain ⟨c, hc, hcw⟩ := hkw
  have hct : c ∈ t := h.sublist.subset hc
  rw [ht c hct] at hcw
  simp at hcw

/-- Every classifier keyword has a non-whitespace character. -/
theorem keywords_not_ws :
    (Part0.KEYWORDS1 ++ Part0.KEYWORDS2 ++ Part0.KEYWORDS3 ++ Part0.KEYWORDS4).all
      (fun kw => kw.any (fun c => !jsWhitespace c)) = true := by
  decide

/-- A whitespace-only message scores zero on every topic. -/
theorem maxScore_ws_zero {m : Str} (h : ∀ c ∈ m, jsWhitespace c = true) :
    Part0.maxScore (removeVietnameseTones (lowerStr m)) = 0 := by
  have ht := norm_ws h
  have hkw := keywords_not_ws
  rw [List.all_eq_true] at hkw
  have hz : ∀ (kws : List Str),
      (∀ kw ∈ kws, kw ∈ Part0.KEYWORDS1 ++ Part0.KEYWORDS2 ++ Part0.KEYWORDS3 ++
        Part0.KEYWORDS4) →
      kws.countP (fun kw => includes (removeVietnameseTones (lowerStr m)) kw) = 0 := by
    intro kws hsub
    rw [List.countP_eq_zero]
    intro kw hkwmem
    rw [includes_false_of_all_ws ht (hkw kw (hsub kw hkwmem))]
    simp
  unfold Part0.maxScore Part0.score
  rw [hz Part0.KEYWORDS1 (by intro kw h1; simp [h1]),
      hz Part0.KEYWORDS2 (by intro kw h1; simp [h1]),
      hz Part0.KEYWORDS3 (by intro kw h1; simp [h1]),
      hz Part0.KEYWORDS4 (by intro kw h1; simp [h1])]
  rfl

/-! ### Classifier case analysis -/

/-- The maximum of the four scores is attained by one of them. -/
theorem maxScore_attained (t : Str) :
    Part0.score t 1 = Part0.maxScore t ∨ Part0.score t 2 = Part0.maxScore t ∨
    Part0.score t 3 = Part0.maxScore t ∨ Part0.score t 4 = Part0.maxScore t := by
  unfold Part0.maxScore
  rcases max_choice (max (max (Part0.score t 1) (Part0.score t 2)) (Part0.score t 3))
      (Part0.score t 4) with h | h <;>
    rcases max_choice (max (Part0.score t 1) (Part0.score t 2)) (Part0.score t 3)
      with h2 | h2 <;>
    rcases max_choice (Part0.score t 1) (Part0.score t 2) with h3 | h3 <;>
    omega


/-- When the maximum keyword score is nonzero and the fast-path is not
triggered, the classifier body returns the first section attaining the
maximum. -/
theorem classifyBody_argmax {t : Str}
    (hFast : (includes t "nhan su".data || includes t "nhan vien".data) = false)
    (hMax : Part0.maxScore t ≠ 0) :
    Part0.score t (Part0.classifyBody t) = Part0.maxScore t ∧
      ∀ s, 1 ≤ s → s ≤ 4 → Part0.score t s = Part0.maxScore t →
        Part0.classifyBody t ≤ s := by
  by_cases h1 : Part0.score t 1 = Part0.maxScore t
  · have hc : Part0.classifyBody t = 1 := by
      simp [Part0.classifyBody, hFast, hMax, h1]
    rw [hc]
    exact ⟨h1, fun s hs1 _ _ => hs1⟩
  · by_cases h2 : Part0.score t 2 = Part0.maxScore t
    · have hc : Part0.classifyBody t = 2 := by
        simp [Part0.classifyBody, hFast, hMax, h1, h2]
      rw [hc]
      refine ⟨h2, fun s hs1 hs4 hs => ?_⟩
      interval_cases s
      · exact absurd hs h1
      · omega
      · omega
      · omega
    · by_cases h3 : Part0.score t 3 = Part0.maxScore t
      · have hc : Part0.classifyBody t = 3 := by
          simp [Part0.classifyBody, hFast, hMax, h1, h2, h3]
        rw [hc]
        refine ⟨h3, fun s hs1 hs4 hs => ?_⟩
        interval_cases s
        · exact absurd hs h1
        · exact absurd hs h2
        · omega
        · omega
      · have h4 : Part0.score t 4 = Part0.maxScore t := by
          rcases maxScore_attained t with h | h | h | h <;> first | exact h | omega
        have hc : Part0.classifyBody t = 4 := by
          simp [Part0.classifyBody, hFast, hMax, h1, h2, h3, h4]
        rw [hc]
        refine ⟨h4, fun s hs1 hs4 hs => ?_⟩
        interval_cases s
        · exact absurd hs h1
        · exact absurd hs h2
        · exact absurd hs h3
        · omega

/-- When every topic scores zero, the classifier body reduces to the
honorific heuristic. -/
theorem classifyBody_zero {t : Str} (hMax : Part0.maxScore t = 0) :
    Part0.classifyBody t = if Part0.honorificMatch t then 2 else 1 := by
  have hs2 : Part0.score t 2 = 0 := by
    unfold Part0.maxScore at hMax
    omega
  have h2 := hs2
  unfold Part0.score at h2
  rw [List.countP_eq_zero] at h2
  have hns := h2 "nhan su".data (by decide)
  have hnv := h2 "nhan vien".data (by decide)
  simp only [Bool.not_eq_true] at hns hnv
  simp [Part0.classifyBody, hns, hnv, hMax]

/-! ### CSV round-trip: parser inversion lemmas -/

/-- The quoted-content parser inverts quote escaping, provided the text
after the closing quote does not begin with another quote (in generated
CSV it begins with a comma, a newline, or ends). -/
theorem parseQuoted_inv (v : Str) :
    ∀ rest : List Char, rest.head? ≠ some '"' →
      CsvSpec.parseQuoted (Server.escapeQuotes v ++ '"' :: rest) = some (v, rest) := by
  induction v with
  | nil =>
    intro rest hrest
    simp only [Server.escapeQuotes, List.flatMap_nil, List.nil_append]
    rw [CsvSpec.parseQuoted.eq_3]
    intro r1 hr1
    rw [hr1] at hrest
    simp at hrest
  | cons c v ih =>
    intro rest hrest
    by_cases hc : c = '"'
    · subst hc
      have he : Server.escapeQuotes ('"' :: v) = '"' :: '"' :: Server.escapeQuotes v := by
        simp [Server.escapeQuotes]
      rw [he, List.cons_append, List.cons_append, CsvSpec.parseQuoted.eq_2,
        ih rest hrest]
      rfl
    · have he : Server.escapeQuotes (c :: v) = c :: Server.escapeQuotes v := by
        simp [Server.escapeQuotes, hc]
      rw [he, List.cons_append, CsvSpec.parseQuoted.eq_4]
      · rw [ih rest hrest]
        rfl
      · intro r1 hcq hr1
        exact hc hcq
      · exact hc

/-- A quoted field followed by a comma, a newline, or the end of input
parses back to its value. -/
theorem parseField_quoted (v : Str) (rest : List Char)
    (hrest : rest.head? ≠ some '"') :
    CsvSpec.parseField (Server.csvField v ++ rest) = some (v, rest) := by
  have he : Server.csvField v ++ rest = '"' :: (Server.escapeQuotes v ++ '"' :: rest) := by
    simp [Server.csvField]
  rw [he]
  simp only [CsvSpec.parseField]
  exact parseQuoted_inv v rest hrest

/-- An unquoted safe field followed by a comma, a newline, or the end of
input parses back to itself. -/
theorem parseField_unquoted {h : Str} (hsafe : CsvSpec.safeHeader h = true)
    (rest : List Char)
    (hrest : rest = [] ∨ rest.head? = some ',' ∨ rest.head? = some '\n') :
    CsvSpec.parseField (h ++ rest) = some (h, rest) := by
  unfold CsvSpec.safeHeader at hsafe
  rw [Bool.and_eq_true, List.all_eq_true] at hsafe
  obtain ⟨hne, hall⟩ := hsafe
  have hp : ∀ c ∈ h, (fun c => !(c = ',' || c = '\n')) c = true := by
    intro c hc
    have := hall c hc
    simp only [Bool.not_eq_true', Bool.or_eq_false_iff, decide_eq_false_iff_not] at this ⊢
    exact ⟨this.1.1, this.1.2⟩
  have htake : (h ++ rest).takeWhile (fun c => !(c = ',' || c = '\n')) = h := by
    rw [List.takeWhile_append_of_pos hp]
    rcases hrest with rfl | hr | hr
    · simp
    · cases rest with
      | nil => simp at hr
      | cons c r =>
        simp only [List.head?_cons, Option.some.injEq] at hr
        subst hr
        simp [List.takeWhile_cons]
    · cases rest with
      | nil => simp at hr
      | cons c r =>
        simp only [List.head?_cons, Option.some.injEq] at hr
        subst hr
        simp [List.takeWhile_cons]
  have hdrop : (h ++ rest).dropWhile (fun c => !(c = ',' || c = '\n')) = rest := by
    rw [List.dropWhile_append_of_pos hp]
    rcases hrest with rfl | hr | hr
    · simp
    · cases rest with
      | nil => simp at hr
      | cons c r =>
        simp only [List.head?_cons, Option.some.injEq] at hr
        subst hr
        simp [List.dropWhile_cons]
    · cases rest with
      | nil => simp at hr
      | cons c r =>
        simp only [List.head?_cons, Option.some.injEq] at hr
        subst hr
        simp [List.dropWhile_cons]
  cases h with
  | nil => simp at hne
  | cons c h2 =>
    have hcq : c ≠ '"' := by
      have := hall c (by simp)
      simp only [Bool.not_eq_true', Bool.or_eq_false_iff, decide_eq_false_iff_not] at this
      exact this.2
    rw [CsvSpec.parseField.eq_def]
    simp only [List.cons_append]
    split
    · rename_i heq
      injection heq with h1 h2
      exact absurd h1 hcq
    · rename_i hnq
      rw [← List.cons_append, htake, hdrop]

/-- One serialized data record at the end of input parses back to its
field values. -/
theorem parseRecordAux_quoted_eof :
    ∀ (vs : List Str) (fuel : Nat), vs ≠ [] → vs.length ≤ fuel →
      CsvSpec.parseRecordAux fuel (arrayJoin [','] (vs.map Server.csvField)) =
        some (vs, []) := by
  intro vs
  induction vs with
  | nil => intro fuel h _; exact absurd rfl h
  | cons v vs ih =>
    intro fuel _ hlen
    obtain ⟨f, rfl⟩ : ∃ f, fuel = f + 1 := ⟨fuel - 1, by simp at hlen; omega⟩
    cases vs with
    | nil =>
      have hf : CsvSpec.parseField (Server.csvField v ++ []) = some (v, []) :=
        parseField_quoted v [] (by simp)
      rw [List.append_nil] at hf
      simp only [List.map_cons, List.map_nil, arrayJoin, CsvSpec.parseRecordAux]
      rw [hf]
    | cons w ws =>
      have hjoin : arrayJoin [','] ((v :: w :: ws).map Server.csvField) =
          Server.csvField v ++
            (',' :: arrayJoin [','] ((w :: ws).map Server.csvField)) := by
        simp [arrayJoin]
      rw [hjoin]
      have hf := parseField_quoted v
        (',' :: arrayJoin [','] ((w :: ws).map Server.csvField)) (by simp)
      simp only [CsvSpec.parseRecordAux]
      rw [hf]
      simp only []
      rw [ih f (by simp) (by simp at hlen ⊢; omega)]
      rfl

/-- One serialized data record followed by a newline parses back to its
field values, leaving the remaining text. -/
theorem parseRecordAux_quoted_nl :
    ∀ (vs : List Str) (fuel : Nat) (tail : List Char), vs ≠ [] → vs.length ≤ fuel →
      CsvSpec.parseRecordAux fuel
          (arrayJoin [','] (vs.map Server.csvField) ++ '\n' :: tail) =
        some (vs, tail) := by
  intro vs
  induction vs with
  | nil => intro fuel tail h _; exact absurd rfl h
  | cons v vs ih =>
    intro fuel tail _ hlen
    obtain ⟨f, rfl⟩ : ∃ f, fuel = f + 1 := ⟨fuel - 1, by simp at hlen; omega⟩
    cases vs with
    | nil =>
      have hf := parseField_quoted v ('\n' :: tail) (by simp)
      simp only [List.map_cons, List.map_nil, arrayJoin, CsvSpec.parseRecordAux]
      rw [hf]
      rfl
    | cons w ws =>
      have hjoin : arrayJoin [','] ((v :: w :: ws).map Server.csvField) ++ '\n' :: tail =
          Server.csvField v ++
            (',' :: (arrayJoin [','] ((w :: ws).map Server.csvField) ++ '\n' :: tail)) := by
        simp [arrayJoin]
      rw [hjoin]
      have hf := parseField_quoted v
        (',' :: (arrayJoin [','] ((w :: ws).map Server.csvField) ++ '\n' :: tail)) (by simp)
      simp only [CsvSpec.parseRecordAux]
      rw [hf]
      simp only []
      rw [ih f tail (by simp) (by simp at hlen ⊢; omega)]
      rfl

/-- The serialized (unquoted) header record followed by a newline parses
back to the column names. -/
theorem parseRecordAux_header :
    ∀ (hs : List Str) (fuel : Nat) (tail : List Char), hs ≠ [] →
      (∀ h ∈ hs, CsvSpec.safeHeader h = true) → hs.length ≤ fuel →
      CsvSpec.parseRecordAux fuel (arrayJoin [','] hs ++ '\n' :: tail) =
        some (hs, tail) := by
  intro hs
  induction hs with
  | nil => intro fuel tail h _ _; exact absurd rfl h
  | cons h hs ih =>
    intro fuel tail _ hsafe hlen
    obtain ⟨f, rfl⟩ : ∃ f, fuel = f + 1 := ⟨fuel - 1, by simp at hlen; omega⟩
    cases hs with
    | nil =>
      have hf := parseField_unquoted (hsafe h (by simp))
        ('\n' :: tail) (by simp)
      simp only [arrayJoin, CsvSpec.parseRecordAux]
      rw [hf]
      rfl
    | cons h2 hs2 =>
      have hjoin : arrayJoin [','] (h :: h2 :: hs2) ++ '\n' :: tail =
          h ++ (',' :: (arrayJoin [','] (h2 :: hs2) ++ '\n' :: tail)) := by
        simp [arrayJoin]
      rw [hjoin]
      have hf := parseField_unquoted (hsafe h (by simp))
        (',' :: (arrayJoin [','] (h2 :: hs2) ++ '\n' :: tail)) (by simp)
      simp only [CsvSpec.parseRecordAux]
      rw [hf]
      simp only []
      rw [ih f tail (by simp) (fun x hx => hsafe x (by simp [hx]))
        (by simp at hlen ⊢; omega)]
      rfl

/-- Unfold one record step of `parseRecords`. -/
theorem parseRecords_step {cs : List Char} (hne : cs ≠ []) {vs : List Str}
    {rest : List Char} {rs : List (List Str)} {fuel : Nat}
    (h1 : CsvSpec.parseRecordAux (cs.length + 1) cs = some (vs, rest))
    (h2 : CsvSpec.parseRecords fuel rest = some rs) :
    CsvSpec.parseRecords (fuel + 1) cs = some (vs :: rs) := by
  obtain ⟨c, cs2, rfl⟩ := List.exists_cons_of_ne_nil hne
  simp only [CsvSpec.parseRecords]
  rw [h1]
  simp only []
  rw [h2]
  rfl

/-- Joining non-empty pieces yields at least one character per piece. -/
theorem length_le_arrayJoin (sep : Str) :
    ∀ (ls : List Str), (∀ l ∈ ls, l ≠ []) →
      ls.length ≤ (arrayJoin sep ls).length := by
  intro ls
  induction ls with
  | nil => simp [arrayJoin]
  | cons x ls ih =>
    intro h
    cases ls with
    | nil =>
      simp only [arrayJoin, List.length_cons, List.length_nil]
      have hx : 0 < x.length := List.length_pos.2 (h x (by simp))
      omega
    | cons y ls2 =>
      simp only [arrayJoin, List.length_append, List.length_cons]
      have hx : 0 < x.length := List.length_pos.2 (h x (by simp))
      have hr := ih (fun l hl => h l (by simp [hl]))
      simp only [List.length_cons] at hr
      omega

/-- A serialized record of a non-empty field list is non-empty. -/
theorem dataLine_ne_nil {vs : List Str} (h : vs ≠ []) :
    arrayJoin [','] (vs.map Server.csvField) ≠ [] := by
  cases vs with
  | nil => exact absurd rfl h
  | cons v vs =>
    cases vs with
    | nil => simp [arrayJoin, Server.csvField]
    | cons w ws => simp [arrayJoin, Server.csvField]

/-- Each serialized field is non-empty. -/
theorem csvField_mem_ne_nil {vs : List Str} :
    ∀ l ∈ vs.map Server.csvField, l ≠ [] := by
  intro l hl
  obtain ⟨w, _, rfl⟩ := List.mem_map.1 hl
  simp [Server.csvField]

/-- The length of a field list is bounded by its serialization. -/
theorem fields_le_dataLine (vs : List Str) :
    vs.length ≤ (arrayJoin [','] (vs.map Server.csvField)).length := by
  have h := length_le_arrayJoin [','] (vs.map Server.csvField) csvField_mem_ne_nil
  simpa using h

/-- The whole serialized data block parses back to the field lists. -/
theorem parseRecords_data :
    ∀ (vss : List (List Str)) (fuel : Nat), vss.length < fuel →
      (∀ vs ∈ vss, vs ≠ []) →
      CsvSpec.parseRecords fuel
          (arrayJoin ['\n']
            (vss.map (fun vs => arrayJoin [','] (vs.map Server.csvField)))) =
        some vss := by
  intro vss
  induction vss with
  | nil =>
    intro fuel hf _
    obtain ⟨f, rfl⟩ : ∃ f, fuel = f + 1 := ⟨fuel - 1, by omega⟩
    simp [arrayJoin, CsvSpec.parseRecords]
  | cons vs vss ih =>
    intro fuel hf hne
    obtain ⟨f, rfl⟩ : ∃ f, fuel = f + 1 := ⟨fuel - 1, by omega⟩
    have hvs : vs ≠ [] := hne vs (by simp)
    have hline := dataLine_ne_nil hvs
    cases vss with
    | nil =>
      simp only [List.map_cons, List.map_nil, arrayJoin]
      have hf1 : 1 ≤ f := by simp at hf; omega
      obtain ⟨f2, rfl⟩ : ∃ f2, f = f2 + 1 := ⟨f - 1, by omega⟩
      exact parseRecords_step hline
        (parseRecordAux_quoted_eof vs _ hvs (by have := fields_le_dataLine vs; omega))
        (by simp [CsvSpec.parseRecords])
    | cons ws wss =>
      have hjoin : arrayJoin ['\n']
            ((vs :: ws :: wss).map (fun v => arrayJoin [','] (v.map Server.csvField))) =
          arrayJoin [','] (vs.map Server.csvField) ++ '\n' ::
            arrayJoin ['\n']
              ((ws :: wss).map (fun v => arrayJoin [','] (v.map Server.csvField))) := by
        simp [arrayJoin]
      rw [hjoin]
      apply parseRecords_step (by simp [hline])
      · apply parseRecordAux_quoted_nl vs _ _ hvs
        have h1 := fields_le_dataLine vs
        simp only [List.length_append, List.length_cons]
        omega
      · exact ih f (by simp at hf ⊢; omega) (fun v hv => hne v (by simp [hv]))

/-- When a row's key list is exactly `headers` (no duplicates), probing
every header recovers exactly the row's values. -/
theorem lookup_eq_of_keys :
    ∀ (row : Row) (headers : List Str), row.map Prod.fst = headers → headers.Nodup →
      headers.map (fun h => lookupStr row h) = row.map Prod.snd := by
  intro row
  induction row with
  | nil =>
    intro headers hk _
    simp only [List.map_nil] at hk
    subst hk
    simp
  | cons kv row ih =>
    intro headers hk hnodup
    obtain ⟨k, v⟩ := kv
    simp only [List.map_cons] at hk
    subst hk
    rw [List.nodup_cons] at hnodup
    obtain ⟨hknot, htl⟩ := hnodup
    simp only [List.map_cons]
    have hhead : lookupStr ((k, v) :: row) k = v := by
      simp [lookupStr, List.lookup_cons]
    have hcongr : ∀ h ∈ List.map Prod.fst row,
        lookupStr ((k, v) :: row) h = lookupStr row h := by
      intro h hmem
      have hne : h ≠ k := fun heq => hknot (heq ▸ hmem)
      have hbeq : (h == k) = false := beq_eq_false_iff_ne.2 hne
      simp [lookupStr, List.lookup_cons, hbeq]
    rw [hhead, List.map_congr_left hcongr, ih _ rfl htl]

/-- Safe headers are non-empty strings. -/
theorem safeHeader_ne_nil {h : Str} (hs : CsvSpec.safeHeader h = true) : h ≠ [] := by
  unfold CsvSpec.safeHeader at hs
  rw [Bool.and_eq_true] at hs
  simpa using hs.1

/-- `csvParse` inverts `rowsToCsv` on a non-empty row list with a
non-empty, duplicate-free, delimiter-free common column set. -/
theorem csvParse_rowsToCsv (r0 : Row) (rest : List Row)
    (hr0 : r0 ≠ [])
    (hnodup : (r0.map Prod.fst).Nodup)
    (hsafe : ∀ h ∈ r0.map Prod.fst, CsvSpec.safeHeader h = true)
    (hkeys : ∀ row ∈ r0 :: rest, row.map Prod.fst = r0.map Prod.fst) :
    CsvSpec.csvParse (Server.rowsToCsv (r0 :: rest)) = some (r0 :: rest) := by
  have hhne : r0.map Prod.fst ≠ [] := by simpa using hr0
  have htext : Server.rowsToCsv (r0 :: rest) =
      arrayJoin [','] (r0.map Prod.fst) ++ '\n' ::
        arrayJoin ['\n']
          (((r0 :: rest).map
              (fun row => (r0.map Prod.fst).map (fun h => lookupStr row h))).map
            (fun vs => arrayJoin [','] (vs.map Server.csvField))) := by
    simp only [Server.rowsToCsv, List.map_cons, arrayJoin, List.map_map]
    simp [Function.comp_def, List.map_map]
  have hvss_ne : ∀ vs ∈ (r0 :: rest).map
      (fun row => (r0.map Prod.fst).map (fun h => lookupStr row h)), vs ≠ [] := by
    intro vs hvs
    obtain ⟨row, -, rfl⟩ := List.mem_map.1 hvs
    simpa using hhne
  have hheadlen : (r0.map Prod.fst).length ≤ (arrayJoin [','] (r0.map Prod.fst)).length :=
    length_le_arrayJoin [','] _ (fun h hh => safeHeader_ne_nil (hsafe h hh))
  have hdatlen : ((r0 :: rest).map
        (fun row => (r0.map Prod.fst).map (fun h => lookupStr row h))).length ≤
      (arrayJoin ['\n']
        (((r0 :: rest).map
            (fun row => (r0.map Prod.fst).map (fun h => lookupStr row h))).map
          (fun vs => arrayJoin [','] (vs.map Server.csvField)))).length := by
    have h := length_le_arrayJoin ['\n']
      (((r0 :: rest).map
          (fun row => (r0.map Prod.fst).map (fun h => lookupStr row h))).map
        (fun vs => arrayJoin [','] (vs.map Server.csvField)))
      (by
        intro l hl
        obtain ⟨vs, hvs, rfl⟩ := List.mem_map.1 hl
        exact dataLine_ne_nil (hvss_ne vs hvs))
    simpa using h
  have hrecords : CsvSpec.parseRecords
      ((Server.rowsToCsv (r0 :: rest)).length + 1) (Server.rowsToCsv (r0 :: rest)) =
      some ((r0.map Prod.fst) :: (r0 :: rest).map
        (fun row => (r0.map Prod.fst).map (fun h => lookupStr row h))) := by
    rw [htext]
    apply parseRecords_step (by simp)
    · apply parseRecordAux_header _ _ _ hhne hsafe
      simp only [List.length_append, List.length_cons]
      omega
    · apply parseRecords_data _ _ _ hvss_ne
      simp only [List.length_append, List.length_cons, List.length_map] at hdatlen ⊢
      omega
  unfold CsvSpec.csvParse
  rw [hrecords]
  simp only []
  rw [if_pos]
  · congr 1
    rw [List.map_map]
    have hid : ∀ row ∈ r0 :: rest,
        ((fun r => (r0.map Prod.fst).zip r) ∘
          (fun row => (r0.map Prod.fst).map (fun h => lookupStr row h))) row = row := by
      intro row hrow
      simp only [Function.comp_def]
      rw [lookup_eq_of_keys row _ (hkeys row hrow) hnodup]
      exact (List.zip_of_prod (hkeys row hrow) rfl).symm
    rw [List.map_congr_left hid, List.map_id']
  · rw [List.all_eq_true]
    intro r hr
    obtain ⟨row, -, rfl⟩ := List.mem_map.1 hr
    simp

/-! ### Retry backoff -/

/-- The sleep schedule of the retry wrapper: `retries` delays, doubling
from `delayMs`. -/
def retryDelays : Nat → Nat → List Nat
  | 0, _ => []
  | r + 1, d => d :: retryDelays r (d * 2)

/-- The sleeps actually performed are an initial segment of the doubling
schedule. -/
theorem callGroq_sleeps_prefix (api : Nat → Server.GroqOutcome) :
    ∀ (retries delayMs attempt : Nat),
      (Server.callGroqWithRetry api attempt retries delayMs).2 <+:
        retryDelays retries delayMs := by
  intro retries
  induction retries with
  | zero =>
    intro delayMs attempt
    unfold Server.callGroqWithRetry
    cases api attempt <;> simp [retryDelays]
  | succ r ih =>
    intro delayMs attempt
    unfold Server.callGroqWithRetry
    cases api attempt with
    | ok v => simp [retryDelays]
    | otherError => simp [retryDelays]
    | rateLimited =>
      simp only [retryDelays]
      obtain ⟨t, ht⟩ := ih (delayMs * 2) (attempt + 1)
      exact ⟨t, by simp [← ht]⟩

/-! ## The claims -/

/-- Claim C9 (confirmed): the tone-folding normalizer is idempotent
(`fold (fold s) = fold s` for every string); it removes every combining
diacritical mark from its output; it folds `đ`/`Đ` to `d`/`D`; it
preserves case (it commutes with lowercasing); and empty (or undefined,
which the code guards with `!str`) input yields the empty string. -/
theorem claim_C9 :
    (∀ s : Str, removeVietnameseTones (removeVietnameseTones s) =
      removeVietnameseTones s) ∧
    (∀ s : Str, (removeVietnameseTones s).all (fun c => !isCombiningMark c) = true) ∧
    removeVietnameseTones "đ".data = "d".data ∧
    removeVietnameseTones "Đ".data = "D".data ∧
    (∀ s : Str, removeVietnameseTones (lowerStr s) =
      lowerStr (removeVietnameseTones s)) ∧
    removeVietnameseTones [] = [] := by
  refine ⟨removeVietnameseTones_idem, ?_, by decide, by decide,
    removeVietnameseTones_lower_comm, rfl⟩
  intro s
  rw [List.all_eq_true]
  intro c hc
  rw [removeVietnameseTones_no_marks hc]
  rfl

/-- Claim C2 (confirmed): the context builder `createContext` serializes
at most the first 40 rows (its output depends only on them), its output
never exceeds the 6500-character budget plus the 12-character truncation
marker, and whenever the serialized JSON exceeds the budget the output is
exactly the JSON truncated to the budget with the marker appended. -/
theorem claim_C2 :
    ∀ rows : List Row,
      (Part0.createContext rows).length ≤
        Part0.MAX_CONTEXT_CHARS + Part0.truncationMarker.length ∧
      Part0.createContext rows = Part0.createContext (rows.take 40) ∧
      Part0.createContext rows =
        (if Part0.MAX_CONTEXT_CHARS < (jsonStringifyRows (rows.take 40)).length then
          (jsonStringifyRows (rows.take 40)).take Part0.MAX_CONTEXT_CHARS ++
            Part0.truncationMarker
        else jsonStringifyRows (rows.take 40)) := by
  intro rows
  refine ⟨?_, ?_, rfl⟩
  · unfold Part0.createContext
    dsimp only
    split
    · next h =>
      rw [List.length_append, List.length_take]
      unfold Part0.MAX_CONTEXT_CHARS at h ⊢
      omega
    · next h =>
      unfold Part0.MAX_CONTEXT_CHARS at h ⊢
      omega
  · unfold Part0.createContext
    simp [List.take_take]

/-- Claim C3 (confirmed): whenever the personnel fast-path does not fire
and the maximum keyword score is non-zero, `classifyQuestion` returns a
topic attaining the maximum score, and it is the lowest-numbered among
the tied topics (sections are numbered 1 = overview, 2 = personnel,
3 = procedures, 4 = metrics). -/
theorem claim_C3 :
    ∀ m : Str,
      (includes (removeVietnameseTones (lowerStr m)) "nhan su".data ||
        includes (removeVietnameseTones (lowerStr m)) "nhan vien".data) = false →
      Part0.maxScore (removeVietnameseTones (lowerStr m)) ≠ 0 →
      Part0.score (removeVietnameseTones (lowerStr m)) (Part0.classifyQuestion m) =
          Part0.maxScore (removeVietnameseTones (lowerStr m)) ∧
        ∀ s, 1 ≤ s → s ≤ 4 →
          Part0.score (removeVietnameseTones (lowerStr m)) s =
            Part0.maxScore (removeVietnameseTones (lowerStr m)) →
          Part0.classifyQuestion m ≤ s := by
  intro m hFast hMax
  have htrim : ¬(jsTrim m = []) := fun h =>
    hMax (maxScore_ws_zero (jsTrim_eq_nil_iff.1 h))
  unfold Part0.classifyQuestion
  rw [if_neg htrim]
  exact classifyBody_argmax hFast hMax

/-- Witness for C3 at the concrete question
"gioi thieu cong ty va quy trinh", where sections 1, 3 and 4 tie with
score 1: the returned topic attains the maximum score (and evaluates
to the lowest tied section, 1). -/
theorem claim_C3_witness :
    Part0.score (removeVietnameseTones (lowerStr "gioi thieu cong ty va quy trinh".data))
        (Part0.classifyQuestion "gioi thieu cong ty va quy trinh".data) =
      Part0.maxScore
        (removeVietnameseTones (lowerStr "gioi thieu cong ty va quy trinh".data)) :=
  (claim_C3 "gioi thieu cong ty va quy trinh".data (by decide) (by decide)).1

/-- Claim C4 (confirmed): an empty or whitespace-only message classifies
as the default topic 1 (overview); and when the maximum keyword score is
zero, the classifier returns 2 (personnel) exactly when the normalized
text matches the honorific-followed-by-word pattern, and 1 (overview)
otherwise. -/
theorem claim_C4 :
    (∀ m : Str, jsTrim m = [] → Part0.classifyQuestion m = 1) ∧
    (∀ m : Str, jsTrim m ≠ [] →
      Part0.maxScore (removeVietnameseTones (lowerStr m)) = 0 →
      Part0.classifyQuestion m =
        (if Part0.honorificMatch (removeVietnameseTones (lowerStr m)) then 2 else 1)) := by
  constructor
  · intro m h
    unfold Part0.classifyQuestion
    rw [if_pos h]
  · intro m hne hMax
    unfold Part0.classifyQuestion
    rw [if_neg hne]
    exact classifyBody_zero hMax

/-- Witness for C4: a whitespace-only message classifies as 1, and the
zero-score message "gap anh tuan" matches the honorific pattern and
classifies as 2 (personnel). -/
theorem claim_C4_witness :
    Part0.classifyQuestion "   ".data = 1 ∧
      Part0.classifyQuestion "gap anh tuan".data = 2 := by
  constructor
  · exact claim_C4.1 "   ".data (by decide)
  · have h := claim_C4.2 "gap anh tuan".data (by decide) (by decide)
    rw [h]
    decide

/-- Claim C8 (confirmed): the complete-list detector answers `true` on the
bare "danh sách nhân viên" and `false` on
"danh sách nhân viên phòng kế toán" (a qualifier is present); in general
it returns `true` exactly on an explicit all/every/total-list phrase, or
on a bare list-of-staff phrase with none of the qualifier words present. -/
theorem claim_C8 :
    Server.isAllEmployeesQuery "danh sách nhân viên".data = true ∧
    Server.isAllEmployeesQuery "danh sách nhân viên phòng kế toán".data = false ∧
    (∀ m : Str,
      Server.isAllEmployeesQuery m =
        (Server.hasExplicitAll (removeVietnameseTones (lowerStr m)) ||
          (Server.hasBareList (removeVietnameseTones (lowerStr m)) &&
            !Server.hasQualifier (removeVietnameseTones (lowerStr m))))) := by
  refine ⟨by decide, by decide, ?_⟩
  intro m
  unfold Server.isAllEmployeesQuery
  cases h1 : Server.hasExplicitAll (removeVietnameseTones (lowerStr m)) <;>
    simp [h1]

/-- Only the personnel branch of the `/chat` handler can write an export
file or set a download URL. -/
theorem chatHandler_nonpersonnel {message : Str}
    (h2 : Server.classifyQuestion message ≠ 2)
    (hrRows introRows : List Row) (now : Nat) :
    (Server.chatHandler message hrRows introRows now).downloadUrl = none ∧
    (Server.chatHandler message hrRows introRows now).fileWritten = none := by
  unfold Server.chatHandler
  rw [if_neg h2]
  split
  · exact ⟨rfl, rfl⟩
  · split
    · exact ⟨rfl, rfl⟩
    · split
      · exact ⟨rfl, rfl⟩
      · exact ⟨rfl, rfl⟩

/-- Claim C10 (confirmed): a `/chat` request whose classified topic is not
personnel (section 2) writes no export file and answers with a `null`
`download_url`; conversely a non-`null` `download_url` (or a written
file) only arises for a request classified as personnel. -/
theorem claim_C10 :
    ∀ (message : Str) (hrRows introRows : List Row) (now : Nat),
      (Server.classifyQuestion message ≠ 2 →
        (Server.chatHandler message hrRows introRows now).downloadUrl = none ∧
        (Server.chatHandler message hrRows introRows now).fileWritten = none) ∧
      ((Server.chatHandler message hrRows introRows now).downloadUrl ≠ none →
        Server.classifyQuestion message = 2) ∧
      ((Server.chatHandler message hrRows introRows now).fileWritten ≠ none →
        Server.classifyQuestion message = 2) := by
  intro message hrRows introRows now
  refine ⟨fun h2 => chatHandler_nonpersonnel h2 hrRows introRows now, ?_, ?_⟩
  · intro hdl
    by_contra h2
    exact hdl (chatHandler_nonpersonnel h2 hrRows introRows now).1
  · intro hfw
    by_contra h2
    exact hfw (chatHandler_nonpersonnel h2 hrRows introRows now).2

/-- Witness for C10: the question "quy trình" classifies as section 3,
and its `/chat` result carries no download URL. -/
theorem claim_C10_witness :
    (Server.chatHandler "quy trình".data [] [] 0).downloadUrl = none :=
  ((claim_C10 "quy trình".data [] [] 0).1 (by decide)).1

/-- Counterexample for C5 as stated: after the retry budget of 3 is
exhausted (sleeping 1000, 2000, 4000 ms), the error reaches the `/chat`
handler's catch-all, whose response for a rate-limit error is identical
to its response for any other internal failure — there is no distinct
user-facing rate-limited response in `src/server.js`. -/
theorem claim_C5_counterexample :
    Server.callGroqWithRetry (fun _ => Server.GroqOutcome.rateLimited) 0 3 1000 =
      (Server.GroqOutcome.rateLimited, [1000, 2000, 4000]) ∧
    Server.chatErrorResponse Server.GroqOutcome.rateLimited =
      Server.chatErrorResponse Server.GroqOutcome.otherError :=
  ⟨rfl, rfl⟩

/-- Claim C5 (corrected): on rate-limit errors `callGroqWithRetry` sleeps
according to an initial segment of the doubling schedule 1000, 2000,
4000 ms (at most 3 retries); an always-rate-limited API exhausts exactly
that schedule and still fails rate-limited; but the `/chat` handler maps
every error — the exhausted rate-limit included — to the one generic
500 response, so no distinct retry-later response exists. -/
theorem claim_C5 :
    (∀ (api : Nat → Server.GroqOutcome) (attempt : Nat),
      (Server.callGroqWithRetry api attempt 3 1000).2 <+: [1000, 2000, 4000]) ∧
    Server.callGroqWithRetry (fun _ => Server.GroqOutcome.rateLimited) 0 3 1000 =
      (Server.GroqOutcome.rateLimited, [1000, 2000, 4000]) ∧
    (∀ e : Server.GroqOutcome,
      Server.chatErrorResponse e = (500, "Lỗi máy chủ /chat.".data)) := by
  refine ⟨?_, rfl, fun _ => rfl⟩
  intro api attempt
  have h := callGroq_sleeps_prefix api 3 1000 attempt
  simpa [retryDelays] using h

/-- Counterexample for C6 as stated: the process-start cache
`{rows: [], loadedAt: 0}` is indistinguishable from a successful fetch of
an empty dataset; after a first call at `t = 0` succeeds with zero rows,
a second call 500 ms later — well inside the 10-minute TTL — performs a
second external fetch, because the code tests `rows.length` rather than
snapshot existence. -/
theorem claim_C6_counterexample :
    (Server.getHrRows ⟨[], 0⟩ 0 (Server.FetchResult.success [])).2.2 = true ∧
    (Server.getHrRows
        (Server.getHrRows ⟨[], 0⟩ 0 (Server.FetchResult.success [])).2.1
        500 (Server.FetchResult.success [])).2.2 = true :=
  ⟨rfl, rfl⟩

/-- Claim C6 (corrected): for both data sources, a cache snapshot with a
non-empty row set younger than the TTL is returned as-is with no external
fetch; and after a first call performs a successful fetch of a non-empty
row set, a second call within one second performs no fetch. -/
theorem claim_C6 :
    (∀ (cache : Server.Cache) (now : Nat) (fetch : Server.FetchResult),
      cache.rows ≠ [] → now - cache.loadedAt < Server.CACHE_TTL →
      Server.getHrRows cache now fetch = (cache.rows, cache, false)) ∧
    (∀ (cache : Server.Cache) (now : Nat) (fetch : Server.FetchResult),
      cache.rows ≠ [] → now - cache.loadedAt < Server.CACHE_TTL →
      Server.getCompanyIntroRows cache now fetch = (cache.rows, cache, false)) ∧
    (∀ (st : Server.Cache) (t0 dt : Nat) (records : List Row)
        (f2 : Server.FetchResult),
      records ≠ [] → dt ≤ 1000 →
      (Server.getHrRows st t0 (Server.FetchResult.success records)).2.2 = true →
      (Server.getHrRows
          (Server.getHrRows st t0 (Server.FetchResult.success records)).2.1
          (t0 + dt) f2).2.2 = false) := by
  have hhit : ∀ (cache : Server.Cache) (now : Nat),
      cache.rows ≠ [] → now - cache.loadedAt < Server.CACHE_TTL →
      (!cache.rows.isEmpty && decide (now - cache.loadedAt < Server.CACHE_TTL)) = true := by
    intro cache now h1 h2
    simp [List.isEmpty_iff, h1, h2]
  refine ⟨?_, ?_, ?_⟩
  · intro cache now fetch h1 h2
    unfold Server.getHrRows
    rw [if_pos (hhit cache now h1 h2)]
  · intro cache now fetch h1 h2
    unfold Server.getCompanyIntroRows
    rw [if_pos (hhit cache now h1 h2)]
  · intro st t0 dt records f2 hrec hdt hfetched
    have hstate : (Server.getHrRows st t0 (Server.FetchResult.success records)).2.1 =
        ⟨records, t0⟩ := by
      unfold Server.getHrRows at hfetched ⊢
      by_cases hc : (!st.rows.isEmpty &&
          decide (t0 - st.loadedAt < Server.CACHE_TTL)) = true
      · rw [if_pos hc] at hfetched
        simp at hfetched
      · rw [if_neg hc]
    rw [hstate]
    unfold Server.getHrRows
    rw [if_pos (hhit ⟨records, t0⟩ (t0 + dt) hrec (by
      show t0 + dt - t0 < Server.CACHE_TTL
      unfold Server.CACHE_TTL
      omega))]

/-- Witness for C6: a one-row snapshot loaded at time 0 is served
unchanged, with no fetch, at time 500. -/
theorem claim_C6_witness :
    Server.getHrRows ⟨[[("a".data, "b".data)]], 0⟩ 500 Server.FetchResult.failure =
      ([[("a".data, "b".data)]], ⟨[[("a".data, "b".data)]], 0⟩, false) :=
  claim_C6.1 ⟨[[("a".data, "b".data)]], 0⟩ 500 Server.FetchResult.failure
    (by decide) (by decide)

/-- When the leadership marker fires, `searchRows` is the title filter. -/
theorem searchRows_title {question : Str}
    (h : Server.titleBranch (removeVietnameseTones (lowerStr question)) = true)
    (rows : List Row) :
    Server.searchRows question rows = rows.filter Server.titleMatches := by
  unfold Server.searchRows
  dsimp only
  rw [if_pos h]

/-- Counterexample for C1 as stated: on the question "truong" the title
filter returns the empty list for a non-empty row set whose only title is
"nhan vien" (so the first-N fallback is not applied on this strategy),
and on 501 rows all titled "truong phong" it returns 501 rows, exceeding
the 500 cap of the generic strategy. -/
theorem claim_C1_counterexample :
    Server.searchRows "truong".data [[("Chức vụ".data, "nhan vien".data)]] = [] ∧
    ([[("Chức vụ".data, "nhan vien".data)]] : List Row) ≠ [] ∧
    (Server.searchRows "truong".data
        (List.replicate 501 [("Chức vụ".data, "truong phong".data)])).length = 501 := by
  refine ⟨by decide, by decide, ?_⟩
  rw [searchRows_title (by decide),
    List.filter_replicate_of_pos (by decide), List.length_replicate]

/-- Claim C1 (corrected): `searchRows` always returns an order-preserving
subsequence of its input.  In `src/server.js`, when neither the title
branch nor the department branch triggers, the result is capped at 500
rows and is non-empty whenever the input is non-empty (first-20
fallback); the two filter branches may return an empty or uncapped
filtered subsequence.  The `part_000` variant of `searchRows` (generic
strategy only) satisfies subsequence, cap and non-emptiness
unconditionally. -/
theorem claim_C1 :
    (∀ (q : Str) (rows : List Row), (Server.searchRows q rows).Sublist rows) ∧
    (∀ (q : Str) (rows : List Row),
      Server.titleBranch (removeVietnameseTones (lowerStr q)) = false →
      Server.deptBranch (removeVietnameseTones (lowerStr q)) = false →
      (Server.searchRows q rows).length ≤ 500 ∧
        (rows ≠ [] → Server.searchRows q rows ≠ [])) ∧
    (∀ (q : Str) (rows : List Row),
      (Part0.searchRows q rows).Sublist rows ∧
      (Part0.searchRows q rows).length ≤ 500 ∧
      (rows ≠ [] → Part0.searchRows q rows ≠ [])) := by
  refine ⟨?_, ?_, ?_⟩
  · intro q rows
    unfold Server.searchRows
    dsimp only
    split
    · exact List.filter_sublist rows
    · split
      · exact List.filter_sublist rows
      · split
        · exact List.take_sublist 20 rows
        · exact searchLoop_sublist _ _ rows 0
  · intro q rows h1 h2
    unfold Server.searchRows
    dsimp only
    rw [if_neg (by simp [h1]), if_neg (by simp [h2])]
    constructor
    · split
      · have := List.length_take_le 20 rows
        omega
      · have := searchLoop_length Server.rowFullText
          ((jsSplitWs (removeVietnameseTones (lowerStr q))).filter
            (fun w => 1 < w.length)) rows 0 (by omega)
        omega
    · intro hrows
      split
      · next h =>
        rw [Ne, List.take_eq_nil_iff]
        simp [hrows]
      · next h =>
        simpa [List.isEmpty_iff] using h
  · intro q rows
    unfold Part0.searchRows
    dsimp only
    refine ⟨?_, ?_, ?_⟩
    · split
      · exact List.take_sublist 20 rows
      · exact searchLoop_sublist _ _ rows 0
    · split
      · have := List.length_take_le 20 rows
        omega
      · have := searchLoop_length Part0.rowFullText
          ((jsSplitWs (lowerStr q)).filter (fun w => 1 < w.length)) rows 0 (by omega)
        omega
    · intro hrows
      split
      · next h =>
        rw [Ne, List.take_eq_nil_iff]
        simp [hrows]
      · next h =>
        simpa [List.isEmpty_iff] using h

/-- Witness for C1 (amended part): the question "xyz" triggers neither
filter branch; on a one-row input the result is non-empty. -/
theorem claim_C1_witness :
    Server.searchRows "xyz".data [[("a".data, "b".data)]] ≠ [] :=
  ((claim_C1.2.1 "xyz".data [[("a".data, "b".data)]]
    (by decide) (by decide)).2) (by decide)

/-- Counterexample for C7 as stated: a column name containing the
delimiter (`"a,b"`) is emitted unquoted in the header row, so re-parsing
sees two columns against one-field data records and fails — the
round-trip does not reconstruct the rows for every common column set. -/
theorem claim_C7_counterexample :
    CsvSpec.csvParse (Server.rowsToCsv [[("a,b".data, "v".data)]]) ≠
      some [[("a,b".data, "v".data)]] := by
  decide

/-- Claim C7 (corrected): for every non-empty row list sharing a
non-empty, duplicate-free common column set whose names are free of the
delimiter, quote and newline characters, serializing with `rowsToCsv`
(unquoted header from the first record's keys; every field double-quoted
with inner quotes doubled; newline-joined) and re-parsing under the
standard delimited-format rules reconstructs the rows exactly — field
values are arbitrary (commas, quotes and newlines round-trip). -/
theorem claim_C7 (r0 : Row) (rest : List Row)
    (hr0 : r0 ≠ [])
    (hnodup : (r0.map Prod.fst).Nodup)
    (hsafe : ∀ h ∈ r0.map Prod.fst, CsvSpec.safeHeader h = true)
    (hkeys : ∀ row ∈ r0 :: rest, row.map Prod.fst = r0.map Prod.fst) :
    CsvSpec.csvParse (Server.rowsToCsv (r0 :: rest)) = some (r0 :: rest) :=
  csvParse_rowsToCsv r0 rest hr0 hnodup hsafe hkeys

/-- Witness for C7 on two rows whose values contain a quote, a comma and
a newline. -/
theorem claim_C7_witness :
    CsvSpec.csvParse (Server.rowsToCsv
        [[("a".data, "x\"y".data), ("b".data, "u,v\nw".data)],
         [("a".data, [] ), ("b".data, "z".data)]]) =
      some [[("a".data, "x\"y".data), ("b".data, "u,v\nw".data)],
            [("a".data, []), ("b".data, "z".data)]] :=
  claim_C7 [("a".data, "x\"y".data), ("b".data, "u,v\nw".data)]
    [[("a".data, []), ("b".data, "z".data)]]
    (by decide) (by decide) (by decide) (by decide)
